import Mathlib

/-!
Shallow embedding of the YOLO NDJSON converter frontend
(`src/lib/types.ts`, the `useConverter` hook and the `ConverterScreen`
component), together with a spec-modelled view of the Rust
`convert_ndjson` command, which is not part of this snapshot.
Numbers of the TypeScript source are embedded as `Int` (the values in
play are integers) and fractional computations as `ℚ`.
-/

namespace YoloZip

/-- The `ProgressEvent` interface of src/lib/types.ts: `phase` is declared
as a plain `string`, `current` and `total` are numbers (integers at
runtime), `item` is `string | null`. -/
structure ProgressEvent where
  phase : String
  current : Int
  total : Int
  item : Option String
deriving DecidableEq

/-- The `ConvertResult` interface exactly as declared in src/lib/types.ts:
it carries only `zip_path`, `file_count` and `image_count`. -/
structure ConvertResult where
  zip_path : String
  file_count : Int
  image_count : Int
deriving DecidableEq

/-- Field names of the `ConvertResult` interface as declared in
src/lib/types.ts (lines 8-12). -/
def convertResultDeclaredFields : List String :=
  ["zip_path", "file_count", "image_count"]

/-- Field names the `ConverterScreen` success panel reads off the `result`
value (`result.zip_path`, `result.failed_downloads`,
`result.download_total`). -/
def successPanelReadFields : List String :=
  ["zip_path", "failed_downloads", "download_total"]

/-- Modelled from the spec: the runtime result value produced by the Rust
`convert_ndjson` command (absent from this snapshot) also carries the
optional `failed_downloads` and `download_total` fields that the success
panel reads; `src/lib/types.ts` declares only the first three. -/
structure RuntimeResult where
  zip_path : String
  file_count : Int
  image_count : Int
  failed_downloads : Option Int
  download_total : Option Int
deriving DecidableEq

/-- The `Format` interface of src/lib/types.ts. -/
structure Format where
  id : String
  name : String
  available : Bool
  desc : String
  highlight : String
deriving DecidableEq

/-- The `formats` constant of src/lib/types.ts, entry for entry. -/
def formats : List Format :=
  [ { id := "yolo", name := "YOLO26", available := true, desc := "TXT annotations and YAML config", highlight := "YOLO26" },
    { id := "yolo", name := "YOLOv12", available := true, desc := "TXT annotations and YAML config", highlight := "YOLOv12" },
    { id := "yolo", name := "YOLOv11", available := true, desc := "TXT annotations and YAML config", highlight := "YOLO11" },
    { id := "yolo", name := "YOLOv9", available := true, desc := "TXT annotations and YAML config", highlight := "YOLOv9" },
    { id := "yolo", name := "YOLOv8", available := true, desc := "TXT annotations and YAML config", highlight := "YOLOv8" },
    { id := "yolo", name := "YOLOv5", available := true, desc := "TXT annotations and YAML config", highlight := "YOLOv5" },
    { id := "yolo", name := "YOLOv7", available := true, desc := "TXT annotations and YAML config", highlight := "YOLOv7" },
    { id := "coco", name := "COCO JSON", available := true, desc := "COCO JSON annotations", highlight := "EfficientDet Pytorch and Detectron 2" },
    { id := "yolo_darknet", name := "YOLO Darknet", available := true, desc := "Darknet TXT annotations", highlight := "YOLO Darknet (both v3 and v4) and YOLOv3 PyTorch" },
    { id := "pascal_voc", name := "Pascal VOC XML", available := true, desc := "Common XML annotation format for local data munging (pioneered by", highlight := "ImageNet" },
    { id := "tfrecord", name := "TFRecord", available := false, desc := "TFRecord binary format", highlight := "Tensorflow 1.5 and Tensorflow 2.0 Object Detection models" },
    { id := "createml", name := "CreateML JSON", available := false, desc := "CreateML JSON format", highlight := "Apple\x27s CreateML and Turi Create tools" } ]

/-- State of the `useConverter` hook (src/hooks/use-converter.ts).
`startTime` (a wall-clock timestamp) is omitted; `elapsedSeconds` is the
derived integer the hook keeps in state and the only time value the
conversion logic reads. -/
structure ConverterState where
  selectedFile : Option String
  selectedFileName : Option String
  selectedFormat : Option Format
  isConverting : Bool
  progress : Option ProgressEvent
  result : Option RuntimeResult
  error : Option String
  elapsedSeconds : Int
deriving DecidableEq

/-- The hook's constant `const includeImages = true`. -/
def includeImages : Bool := true

/-- The JavaScript separator test `/[/\\]/` used by
`path.split(/[/\\]/)`. -/
def jsSplitSep (c : Char) : Bool := c == '/' || c == '\\'

/-- Character-list splitting with the semantics of JavaScript
`String.prototype.split` on a single-character class: separators delimit
(possibly empty) fields, and the result is never the empty list. -/
def splitChars : List Char → List (List Char)
  | [] => [[]]
  | c :: cs =>
    if jsSplitSep c then [] :: splitChars cs
    else
      match splitChars cs with
      | [] => [[c]]
      | w :: ws => (c :: w) :: ws

/-- The file-name extraction `path.split(/[/\\]/).pop() || path` used by
`selectFile` and `setFileFromPath`. -/
def baseName (path : String) : String :=
  match (splitChars path.data).getLast? with
  | none => path
  | some last => if last.isEmpty then path else ⟨last⟩

/-- JavaScript `String.prototype.endsWith` restricted to a fixed suffix
argument, as used by the drag-drop handler. -/
def jsEndsWith (s post : String) : Bool := post.data.isSuffixOf s.data

/-- `setFileFromPath` of the hook: stores the path, derives the display
name, and clears any previous result and error. -/
def setFileFromPath (s : ConverterState) (path : String) : ConverterState :=
  { s with
    selectedFile := some path
    selectedFileName := some (baseName path)
    result := none
    error := none }

/-- The argument object of the `invoke("convert_ndjson", ...)` call in
`handleConvert`: exactly the five properties `filePath`, `format`,
`outputPath`, `includeImages` and `channel` (the channel object itself
carries no data relevant here and is embedded as `Unit`). -/
structure InvokeArgs where
  filePath : String
  format : String
  outputPath : String
  includeImages : Bool
  channel : Unit
deriving DecidableEq

/-- `handleConvert` of the hook. External effects are parameters: the
save-dialog outcome `savedPath` (the user may cancel), the list of
progress events `delivered` on the channel while the invocation runs
(each message overwrites `progress`), and the invocation `outcome`
(resolve with a result, or reject with an error message). Returns the
post-run hook state together with the invocation arguments, `none` when
one of the guards returned early and no invocation was made. -/
def handleConvert (s : ConverterState) (savedPath : Option String)
    (delivered : List ProgressEvent) (outcome : Except String RuntimeResult) :
    ConverterState × Option InvokeArgs :=
  match s.selectedFile, s.selectedFormat with
  | some filePath, some fmt =>
    (match savedPath with
     | none => (s, none)
     | some outputPath =>
       let args : InvokeArgs :=
         { filePath := filePath
           format := fmt.id
           outputPath := outputPath
           includeImages := includeImages
           channel := () }
       let running : ConverterState :=
         { s with
           isConverting := true
           progress := delivered.getLast?
           result := none
           error := none
           elapsedSeconds := 0 }
       match outcome with
       | .ok r => ({ running with result := some r, isConverting := false }, some args)
       | .error e => ({ running with error := some e, isConverting := false }, some args))
  | _, _ => (s, none)

/-- `Math.round` on exact rationals: round half toward positive
infinity. -/
def jsRound (q : ℚ) : Int := ⌊q + 1 / 2⌋

/-- `getProgressPercentage` of the hook: 0 without a progress event or
with a zero total, otherwise `Math.round((current / total) * 100)`. -/
def getProgressPercentage (s : ConverterState) : Int :=
  match s.progress with
  | none => 0
  | some p => if p.total = 0 then 0 else jsRound ((p.current : ℚ) / (p.total : ℚ) * 100)

/-- JavaScript `Number.prototype.toFixed(1)` on an exact non-negative
rational: the nearest multiple of 1/10, ties toward the larger value. -/
def toFixed1Nonneg (q : ℚ) : String :=
  let n := (⌊10 * q + 1 / 2⌋).toNat
  toString (n / 10) ++ "." ++ toString (n % 10)

/-- JavaScript `Number.prototype.toFixed(1)` on an exact rational. -/
def toFixed1 (q : ℚ) : String :=
  if q < 0 then "-" ++ toFixed1Nonneg (-q) else toFixed1Nonneg q

/-- `getDownloadRate` of the hook: the literal `"0.0"` unless a download
is in progress with non-zero elapsed time and count, otherwise
`(current / elapsedSeconds).toFixed(1)`. -/
def getDownloadRate (s : ConverterState) : String :=
  if s.elapsedSeconds = 0 then "0.0"
  else
    match s.progress with
    | none => "0.0"
    | some p =>
      if p.phase ≠ "downloading" then "0.0"
      else if p.current = 0 then "0.0"
      else toFixed1 ((p.current : ℚ) / (s.elapsedSeconds : ℚ))

/-- The failure note of the success panel (ConverterScreen lines 238-244):
rendered only when `failed_downloads > 0` (JavaScript comparison, false on
a missing field); the all-failed wording is chosen exactly when
`failed_downloads === download_total`. -/
def failureNote (r : RuntimeResult) : Option String :=
  match r.failed_downloads with
  | none => none
  | some fd =>
    if 0 < fd then
      some (if r.download_total = some fd then
              "All " ++ toString fd ++ " images failed to download. Check your network or CDN access."
            else
              toString fd ++ " image" ++ (if fd = 1 then "" else "s") ++ " failed to download and were omitted.")
    else none

/-- What the convert area of `ConverterScreen` renders: nothing without a
selected format, the convert button (with progress) without a result, and
the success panel once a result is present. -/
inductive Pane where
  | empty : Pane
  | convertButton (isConverting : Bool) (phase : Option String) : Pane
  | successPanel (zipPath : String) (note : Option String) : Pane
deriving DecidableEq

/-- The render decision of `ConverterScreen` for the convert area
(`{selectedFormat && (!result ? ... : ...)}`). -/
def convertPane (selectedFormat : Option Format) (isConverting : Bool)
    (progress : Option ProgressEvent) (result : Option RuntimeResult) : Pane :=
  match selectedFormat with
  | none => .empty
  | some _ =>
    match result with
    | none => .convertButton isConverting (progress.map (fun p => p.phase))
    | some r => .successPanel r.zip_path (failureNote r)

/-- The nested ternary of `ConverterScreen` (lines 165-173) that labels
the current phase, with the `"Processing"` fallback. -/
def phaseLabel (phase : String) : String :=
  if phase = "downloading" then "Downloading Images"
  else if phase = "converting" then "Converting Annotations"
  else if phase = "zipping" then "Creating ZIP"
  else if phase = "parsing" then "Parsing NDJSON"
  else "Processing"

/-- State local to `ConverterScreen`: the hook state plus the
`isDragging` flag. -/
structure ScreenState where
  conv : ConverterState
  isDragging : Bool
deriving DecidableEq

/-- The payloads of the webview drag-drop event handled by
`ConverterScreen`. -/
inductive DragDropPayload where
  | over : DragDropPayload
  | leave : DragDropPayload
  | drop (paths : List String) : DragDropPayload
deriving DecidableEq

/-- The `onDragDropEvent` callback of `ConverterScreen` (lines 47-62):
on a drop, only the first path is looked at, and it is accepted exactly
when it ends with `".ndjson"` or `".jsonl"`. -/
def onDragDropEvent (s : ScreenState) (ev : DragDropPayload) : ScreenState :=
  match ev with
  | .over => { s with isDragging := true }
  | .leave => { s with isDragging := false }
  | .drop paths =>
    let dropped : ScreenState := { s with isDragging := false }
    match paths with
    | [] => dropped
    | file :: _ =>
      if jsEndsWith file ".ndjson" || jsEndsWith file ".jsonl" then
        { dropped with conv := setFileFromPath dropped.conv file }
      else dropped

/-- Modelled from the spec: the four pipeline phases of the Rust backend
(absent from this snapshot), in their fixed order
parsing → downloading → converting → zipping. -/
inductive Phase where
  | parsing : Phase
  | downloading : Phase
  | converting : Phase
  | zipping : Phase
deriving DecidableEq

/-- Modelled from the spec: the wire string of each phase, the strings
the frontend matches on. -/
def Phase.toWire : Phase → String
  | .parsing => "parsing"
  | .downloading => "downloading"
  | .converting => "converting"
  | .zipping => "zipping"

/-- Modelled from the spec: a progress message delivered on the channel
by the backend carries one of the four phases, integer counters and an
optional item string. -/
def emittedEvent (ph : Phase) (current total : Int) (item : Option String) : ProgressEvent :=
  { phase := ph.toWire, current := current, total := total, item := item }

/-- Position of a phase string in the spec's fixed order; unknown strings
rank past every real phase. -/
def phaseRank (phase : String) : Nat :=
  if phase = "parsing" then 0
  else if phase = "downloading" then 1
  else if phase = "converting" then 2
  else if phase = "zipping" then 3
  else 4

/-- One observable step of the progress stream is in order: either the
phase advances, or the phase is unchanged and `current` does not
decrease. -/
def stepOk (e₁ e₂ : ProgressEvent) : Prop :=
  phaseRank e₁.phase < phaseRank e₂.phase ∨
    (e₁.phase = e₂.phase ∧ e₁.current ≤ e₂.current)

/-- Modelled from the spec: the progress events one phase emits, one
after each of `total` units of work, with `current` counting up. -/
def phaseEvents (ph : Phase) (total : Nat) : List ProgressEvent :=
  (List.range total).map fun (i : Nat) =>
    { phase := ph.toWire, current := (i : Int) + 1, total := (total : Int), item := none }

/-- Modelled from the spec: the full event stream of one job, the four
phases in order (`total` is the line count for parsing, the image count
for downloading and converting, the entry count for zipping). -/
def traceEvents (lineCount imageCount entryCount : Nat) : List ProgressEvent :=
  phaseEvents .parsing lineCount ++ phaseEvents .downloading imageCount ++
    phaseEvents .converting imageCount ++ phaseEvents .zipping entryCount

/-- An item of the channel as the caller observes it: a progress message
or the final result. -/
inductive PipelineOutput where
  | event (e : ProgressEvent) : PipelineOutput
  | result (r : RuntimeResult) : PipelineOutput
deriving DecidableEq

/-- Whether a pipeline output is a progress event. -/
def PipelineOutput.isEvent : PipelineOutput → Bool
  | .event _ => true
  | .result _ => false

/-- Modelled from the spec: everything the caller observes from one
successful job, the progress events of the four phases followed by the
final result. -/
def pipelineTrace (lineCount imageCount entryCount : Nat) (r : RuntimeResult) :
    List PipelineOutput :=
  (traceEvents lineCount imageCount entryCount).map PipelineOutput.event ++
    [PipelineOutput.result r]

/-! Helper lemmas shared by the claim theorems. -/

lemma phase_of_mem_phaseEvents {e : ProgressEvent} {ph : Phase} {n : Nat}
    (h : e ∈ phaseEvents ph n) : e.phase = ph.toWire := by
  simp only [phaseEvents, List.mem_map, List.mem_range] at h
  obtain ⟨i, _, rfl⟩ := h
  rfl

lemma chain'_phaseEvents (ph : Phase) (n : Nat) :
    List.Chain' stepOk (phaseEvents ph n) := by
  rw [phaseEvents, List.chain'_map]
  cases n with
  | zero => simp
  | succ m =>
    rw [List.chain'_range_succ]
    intro i _
    right
    refine ⟨rfl, ?_⟩
    show ((i : Int) + 1) ≤ (((i + 1 : Nat) : Int) + 1)
    push_cast
    omega

lemma chain'_append_ranked {l₁ l₂ : List ProgressEvent} {k : Nat}
    (h₁ : List.Chain' stepOk l₁) (h₂ : List.Chain' stepOk l₂)
    (hb₁ : ∀ e ∈ l₁, phaseRank e.phase ≤ k)
    (hb₂ : ∀ e ∈ l₂, k < phaseRank e.phase) :
    List.Chain' stepOk (l₁ ++ l₂) := by
  refine h₁.append h₂ ?_
  intro x hx y hy
  left
  exact lt_of_le_of_lt (hb₁ x (List.mem_of_mem_getLast? hx))
    (hb₂ y (List.mem_of_mem_head? hy))

/-- C2 (code bug): the success panel of `ConverterScreen` reads the
`failed_downloads` and `download_total` properties off the result, but
the `ConvertResult` interface declared in src/lib/types.ts carries
neither, so the declared type does not contain all five fields the claim
(and the spec's invocation contract) lists. -/
theorem c2_convert_result_fields_missing :
    "failed_downloads" ∈ successPanelReadFields ∧
    "download_total" ∈ successPanelReadFields ∧
    "failed_downloads" ∉ convertResultDeclaredFields ∧
    "download_total" ∉ convertResultDeclaredFields := by
  decide

/-- C6: the `formats` list is a closed enumeration of 12 entries; exactly
the TFRecord and CreateML entries are unavailable; every available entry
carries one of the four implemented ids; and exactly seven entries (the
YOLO family) share the id `"yolo"`. -/
theorem c6_formats_closed_enumeration :
    formats.length = 12 ∧
    (formats.filter fun f => !f.available).map (fun f => f.name) =
      ["TFRecord", "CreateML JSON"] ∧
    ((formats.filter fun f => f.available).all fun f =>
      ["yolo", "coco", "yolo_darknet", "pascal_voc"].contains f.id) = true ∧
    (formats.filter fun f => f.id == "yolo").length = 7 := by
  decide

/-- C3 (spec-modelled emitter): every message the backend delivers on the
progress channel carries one of the four phase strings `"parsing"`,
`"downloading"`, `"converting"`, `"zipping"` (its counters are integers
and its item an optional string by the type of `emittedEvent`), and the
consuming screen resolves each of the four to its dedicated label, never
the `"Processing"` fallback. -/
theorem c3_progress_phase_in_four_set :
    ∀ (ph : Phase) (current total : Int) (item : Option String),
      (emittedEvent ph current total item).phase ∈
        ["parsing", "downloading", "converting", "zipping"] ∧
      phaseLabel (emittedEvent ph current total item).phase ≠ "Processing" := by
  intro ph current total item
  cases ph <;> simp [emittedEvent, Phase.toWire, phaseLabel]

/-- C7 (spec-modelled orchestrator): along the job's observable stream
the phase only ever advances through parsing → downloading → converting →
zipping, `current` is non-decreasing within a phase, and the final result
is the last item of the stream, after every progress event. -/
theorem c7_phase_order_and_final_result :
    ∀ (lineCount imageCount entryCount : Nat) (r : RuntimeResult),
      List.Chain' stepOk (traceEvents lineCount imageCount entryCount) ∧
      (pipelineTrace lineCount imageCount entryCount r).getLast? =
        some (PipelineOutput.result r) ∧
      ((pipelineTrace lineCount imageCount entryCount r).dropLast.all
        PipelineOutput.isEvent) = true := by
  intro l i e r
  have hz : List.Chain' stepOk
      (phaseEvents .converting i ++ phaseEvents .zipping e) := by
    refine chain'_append_ranked (k := 2) (chain'_phaseEvents _ _)
      (chain'_phaseEvents _ _) ?_ ?_
    · intro x hx
      rw [phase_of_mem_phaseEvents hx]
      decide
    · intro x hx
      rw [phase_of_mem_phaseEvents hx]
      decide
  have hd : List.Chain' stepOk
      (phaseEvents .downloading i ++
        (phaseEvents .converting i ++ phaseEvents .zipping e)) := by
    refine chain'_append_ranked (k := 1) (chain'_phaseEvents _ _) hz ?_ ?_
    · intro x hx
      rw [phase_of_mem_phaseEvents hx]
      decide
    · intro x hx
      rcases List.mem_append.mp hx with h | h <;>
        (rw [phase_of_mem_phaseEvents h]; decide)
  refine ⟨?_, ?_, ?_⟩
  · rw [traceEvents, List.append_assoc, List.append_assoc]
    refine chain'_append_ranked (k := 0) (chain'_phaseEvents _ _) hd ?_ ?_
    · intro x hx
      rw [phase_of_mem_phaseEvents hx]
      decide
    · intro x hx
      rcases List.mem_append.mp hx with h | h
      · rw [phase_of_mem_phaseEvents h]
        decide
      · rcases List.mem_append.mp h with h' | h' <;>
          (rw [phase_of_mem_phaseEvents h']; decide)
  · rw [pipelineTrace]
    exact List.getLast?_concat _
  · rw [pipelineTrace, List.dropLast_concat]
    simp [List.all_eq_true, List.mem_map, PipelineOutput.isEvent]

/-- C1: with a selected file, a selected format and a chosen output path,
`handleConvert` makes one `convert_ndjson` invocation carrying exactly
`filePath`, `format`, `outputPath`, `includeImages` and `channel`, and the
asynchronous outcome is stored either as the result value or as the error
message string. -/
theorem c1_invoke_args_and_outcome :
    ∀ (s : ConverterState) (file : String) (fmt : Format) (outputPath : String)
      (delivered : List ProgressEvent) (outcome : Except String RuntimeResult),
      s.selectedFile = some file → s.selectedFormat = some fmt →
      (handleConvert s (some outputPath) delivered outcome).2 =
        some { filePath := file, format := fmt.id, outputPath := outputPath,
               includeImages := true, channel := () } ∧
      (∀ r, outcome = .ok r →
        (handleConvert s (some outputPath) delivered outcome).1.result = some r) ∧
      (∀ err, outcome = .error err →
        (handleConvert s (some outputPath) delivered outcome).1.error = some err) := by
  intro s file fmt p delivered outcome h1 h2
  cases outcome with
  | ok r => simp [handleConvert, h1, h2, includeImages]
  | error err => simp [handleConvert, h1, h2, includeImages]

theorem c1_invoke_args_and_outcome_witness :
    (handleConvert
      ⟨some "/tmp/data.ndjson", some "data.ndjson",
       some { id := "yolo", name := "YOLOv8", available := true,
              desc := "TXT annotations and YAML config", highlight := "YOLOv8" },
       false, none, none, none, 0⟩
      (some "/tmp/data_yolov8.zip") []
      (.ok ⟨"/tmp/data_yolov8.zip", 3, 2, some 0, some 2⟩)).2 =
      some { filePath := "/tmp/data.ndjson", format := "yolo",
             outputPath := "/tmp/data_yolov8.zip", includeImages := true,
             channel := () } := by
  exact (c1_invoke_args_and_outcome
    ⟨some "/tmp/data.ndjson", some "data.ndjson",
     some { id := "yolo", name := "YOLOv8", available := true,
            desc := "TXT annotations and YAML config", highlight := "YOLOv8" },
     false, none, none, none, 0⟩
    "/tmp/data.ndjson"
    { id := "yolo", name := "YOLOv8", available := true,
      desc := "TXT annotations and YAML config", highlight := "YOLOv8" }
    "/tmp/data_yolov8.zip" []
    (.ok ⟨"/tmp/data_yolov8.zip", 3, 2, some 0, some 2⟩) rfl rfl).1

/-- C5: after a completed `handleConvert` run that reached the
invocation, exactly one of the hook's `result` and `error` states is
non-null: a rejection leaves `result` null and stores the message in
`error`, a resolution stores the value in `result` and leaves `error`
null. -/
theorem c5_exactly_one_outcome_state :
    ∀ (s : ConverterState) (file : String) (fmt : Format) (outputPath : String)
      (delivered : List ProgressEvent) (outcome : Except String RuntimeResult),
      s.selectedFile = some file → s.selectedFormat = some fmt →
      (∀ r, outcome = .ok r →
        (handleConvert s (some outputPath) delivered outcome).1.result = some r ∧
        (handleConvert s (some outputPath) delivered outcome).1.error = none) ∧
      (∀ err, outcome = .error err →
        (handleConvert s (some outputPath) delivered outcome).1.result = none ∧
        (handleConvert s (some outputPath) delivered outcome).1.error = some err) ∧
      ((handleConvert s (some outputPath) delivered outcome).1.result ≠ none ∧
         (handleConvert s (some outputPath) delivered outcome).1.error = none ∨
       (handleConvert s (some outputPath) delivered outcome).1.result = none ∧
         (handleConvert s (some outputPath) delivered outcome).1.error ≠ none) := by
  intro s file fmt p delivered outcome h1 h2
  cases outcome with
  | ok r => simp [handleConvert, h1, h2]
  | error err => simp [handleConvert, h1, h2]

theorem c5_exactly_one_outcome_state_witness :
    (handleConvert
      ⟨some "/tmp/data.ndjson", some "data.ndjson",
       some { id := "coco", name := "COCO JSON", available := true,
              desc := "COCO JSON annotations",
              highlight := "EfficientDet Pytorch and Detectron 2" },
       false, none, none, none, 0⟩
      (some "/tmp/data_coco-json.zip") []
      (.error "missing dataset header")).1.result = none ∧
    (handleConvert
      ⟨some "/tmp/data.ndjson", some "data.ndjson",
       some { id := "coco", name := "COCO JSON", available := true,
              desc := "COCO JSON annotations",
              highlight := "EfficientDet Pytorch and Detectron 2" },
       false, none, none, none, 0⟩
      (some "/tmp/data_coco-json.zip") []
      (.error "missing dataset header")).1.error = some "missing dataset header" := by
  exact (c5_exactly_one_outcome_state
    ⟨some "/tmp/data.ndjson", some "data.ndjson",
     some { id := "coco", name := "COCO JSON", available := true,
            desc := "COCO JSON annotations",
            highlight := "EfficientDet Pytorch and Detectron 2" },
     false, none, none, none, 0⟩
    "/tmp/data.ndjson"
    { id := "coco", name := "COCO JSON", available := true,
      desc := "COCO JSON annotations",
      highlight := "EfficientDet Pytorch and Detectron 2" }
    "/tmp/data_coco-json.zip" [] (.error "missing dataset header")
    rfl rfl).2.1 "missing dataset header" rfl

/-- C10: the hook's `includeImages` constant is `true`, and every
invocation `handleConvert` ever produces carries `includeImages = true`;
the frontend never sends `false`. -/
theorem c10_include_images_constant_true :
    includeImages = true ∧
    ∀ (s : ConverterState) (savedPath : Option String)
      (delivered : List ProgressEvent) (outcome : Except String RuntimeResult),
      Option.all (fun args => args.includeImages)
        (handleConvert s savedPath delivered outcome).2 = true := by
  refine ⟨rfl, ?_⟩
  intro s saved delivered outcome
  cases hsf : s.selectedFile with
  | none => simp [handleConvert, hsf]
  | some file =>
    cases hfm : s.selectedFormat with
    | none => simp [handleConvert, hsf, hfm]
    | some fmt =>
      cases saved with
      | none => simp [handleConvert, hsf, hfm]
      | some p =>
        cases outcome with
        | ok r => simp [handleConvert, hsf, hfm, includeImages]
        | error err => simp [handleConvert, hsf, hfm, includeImages]

/-- C9: a drop with a non-empty path list only considers the first path;
the selection is updated to that path (with its base name) exactly when it
ends with `".ndjson"` or `".jsonl"`, and any other drop leaves the
selected file and file name unchanged. -/
theorem c9_drop_first_path_recognized_extensions :
    ∀ (s : ScreenState) (file : String) (rest : List String),
      onDragDropEvent s (.drop (file :: rest)) = onDragDropEvent s (.drop [file]) ∧
      ((jsEndsWith file ".ndjson" || jsEndsWith file ".jsonl") = true →
        (onDragDropEvent s (.drop (file :: rest))).conv.selectedFile = some file ∧
        (onDragDropEvent s (.drop (file :: rest))).conv.selectedFileName =
          some (baseName file)) ∧
      ((jsEndsWith file ".ndjson" || jsEndsWith file ".jsonl") = false →
        (onDragDropEvent s (.drop (file :: rest))).conv.selectedFile =
          s.conv.selectedFile ∧
        (onDragDropEvent s (.drop (file :: rest))).conv.selectedFileName =
          s.conv.selectedFileName) := by
  intro s file rest
  by_cases h : (jsEndsWith file ".ndjson" || jsEndsWith file ".jsonl") = true
  · refine ⟨?_, fun _ => ?_, fun hf => absurd h (by simp [hf])⟩ <;>
      simp [onDragDropEvent, setFileFromPath, h]
  · rw [Bool.not_eq_true] at h
    refine ⟨?_, fun ht => absurd ht (by simp [h]), fun _ => ?_⟩ <;>
      simp [onDragDropEvent, h]

theorem c9_drop_first_path_witness :
    (onDragDropEvent ⟨⟨none, none, none, false, none, none, none, 0⟩, true⟩
        (.drop ["/tmp/a.ndjson", "/tmp/b.txt"])).conv.selectedFile =
      some "/tmp/a.ndjson" ∧
    (onDragDropEvent ⟨⟨none, none, none, false, none, none, none, 0⟩, true⟩
        (.drop ["/tmp/a.ndjson", "/tmp/b.txt"])).conv.selectedFileName =
      some "a.ndjson" ∧
    (onDragDropEvent ⟨⟨none, none, none, false, none, none, none, 0⟩, true⟩
        (.drop ["/tmp/c.txt"])).conv.selectedFile = none := by
  have h := c9_drop_first_path_recognized_extensions
    ⟨⟨none, none, none, false, none, none, none, 0⟩, true⟩
    "/tmp/a.ndjson" ["/tmp/b.txt"]
  have h2 := h.2.1 (by decide)
  have h3 := c9_drop_first_path_recognized_extensions
    ⟨⟨none, none, none, false, none, none, none, 0⟩, true⟩ "/tmp/c.txt" []
  exact ⟨h2.1, h2.2.trans (by decide), (h3.2.2 (by decide)).1⟩

/-- C4: a result with failed downloads is still rendered as the success
panel; the failure note shows the all-downloads-failed wording exactly
when `failed_downloads` equals `download_total`, the omitted-images
wording otherwise, and a result with `failed_downloads = 0` shows no
failure note. -/
theorem c4_failed_downloads_still_success :
    ∀ (fmt : Format) (isConv : Bool) (progress : Option ProgressEvent)
      (r : RuntimeResult) (fd : Int),
      r.failed_downloads = some fd →
      (0 < fd → r.download_total = some fd →
        convertPane (some fmt) isConv progress (some r) =
          .successPanel r.zip_path
            (some ("All " ++ toString fd ++
              " images failed to download. Check your network or CDN access."))) ∧
      (0 < fd → r.download_total ≠ some fd →
        convertPane (some fmt) isConv progress (some r) =
          .successPanel r.zip_path
            (some (toString fd ++ " image" ++ (if fd = 1 then "" else "s") ++
              " failed to download and were omitted."))) ∧
      (fd = 0 →
        convertPane (some fmt) isConv progress (some r) =
          .successPanel r.zip_path none) := by
  intro fmt isConv progress r fd hfd
  refine ⟨?_, ?_, ?_⟩
  · intro hpos heq
    simp [convertPane, failureNote, hfd, hpos, heq]
  · intro hpos hne
    simp [convertPane, failureNote, hfd, hpos, hne]
  · intro h0
    subst h0
    simp [convertPane, failureNote, hfd]

theorem c4_failed_downloads_witness :
    convertPane
      (some { id := "yolo", name := "YOLOv8", available := true,
              desc := "TXT annotations and YAML config", highlight := "YOLOv8" })
      false none (some ⟨"/tmp/out.zip", 5, 3, some 2, some 5⟩) =
      .successPanel "/tmp/out.zip"
        (some "2 images failed to download and were omitted.") := by
  have h := (c4_failed_downloads_still_success
    { id := "yolo", name := "YOLOv8", available := true,
      desc := "TXT annotations and YAML config", highlight := "YOLOv8" }
    false none ⟨"/tmp/out.zip", 5, 3, some 2, some 5⟩ 2 rfl).2.1
    (by decide) (by decide)
  exact h.trans (by decide)

/-- C8: the percentage and rate helpers never divide by zero:
`getProgressPercentage` is 0 without a progress event or with a zero
total and otherwise rounds `100 * current / total`; `getDownloadRate` is
the string `"0.0"` whenever the elapsed time is zero, there is no
progress event, the phase is not `"downloading"`, or the count is zero,
and otherwise formats `current / elapsedSeconds` to one decimal place. -/
theorem c8_progress_division_guards :
    ∀ (s : ConverterState),
      (s.progress = none → getProgressPercentage s = 0) ∧
      (∀ p, s.progress = some p → p.total = 0 → getProgressPercentage s = 0) ∧
      (∀ p, s.progress = some p → p.total ≠ 0 →
        getProgressPercentage s = jsRound (100 * (p.current : ℚ) / (p.total : ℚ))) ∧
      (s.elapsedSeconds = 0 → getDownloadRate s = "0.0") ∧
      (s.progress = none → getDownloadRate s = "0.0") ∧
      (∀ p, s.progress = some p → p.phase ≠ "downloading" →
        getDownloadRate s = "0.0") ∧
      (∀ p, s.progress = some p → p.current = 0 → getDownloadRate s = "0.0") ∧
      (∀ p, s.progress = some p → s.elapsedSeconds ≠ 0 →
        p.phase = "downloading" → p.current ≠ 0 →
        getDownloadRate s = toFixed1 ((p.current : ℚ) / (s.elapsedSeconds : ℚ))) := by
  intro s
  refine ⟨?_, ?_, ?_, ?_, ?_, ?_, ?_, ?_⟩
  · intro h
    simp [getProgressPercentage, h]
  · intro p hp ht
    simp [getProgressPercentage, hp, ht]
  · intro p hp ht
    rw [getProgressPercentage]
    simp only [hp]
    rw [if_neg ht]
    exact congrArg jsRound (by ring)
  · intro h
    simp [getDownloadRate, h]
  · intro h
    rw [getDownloadRate]
    by_cases he : s.elapsedSeconds = 0
    · simp [he]
    · simp [he, h]
  · intro p hp hph
    rw [getDownloadRate]
    by_cases he : s.elapsedSeconds = 0
    · simp [he]
    · simp [he, hp, hph]
  · intro p hp hc
    rw [getDownloadRate]
    by_cases he : s.elapsedSeconds = 0
    · simp [he]
    · by_cases hph : p.phase = "downloading"
      · simp [he, hp, hph, hc]
      · simp [he, hp, hph]
  · intro p hp he hph hc
    simp [getDownloadRate, he, hp, hph, hc]

theorem c8_progress_division_witness :
    getProgressPercentage
      ⟨none, none, none, true, some ⟨"downloading", 3, 4, none⟩, none, none, 2⟩ = 75 ∧
    getDownloadRate
      ⟨none, none, none, true, some ⟨"downloading", 3, 4, none⟩, none, none, 2⟩ = "1.5" ∧
    getProgressPercentage
      ⟨none, none, none, true, some ⟨"parsing", 0, 0, none⟩, none, none, 0⟩ = 0 ∧
    getDownloadRate
      ⟨none, none, none, true, some ⟨"parsing", 0, 0, none⟩, none, none, 0⟩ = "0.0" := by
  have h := c8_progress_division_guards
    ⟨none, none, none, true, some ⟨"downloading", 3, 4, none⟩, none, none, 2⟩
  have h0 := c8_progress_division_guards
    ⟨none, none, none, true, some ⟨"parsing", 0, 0, none⟩, none, none, 0⟩
  refine ⟨?_, ?_, ?_, ?_⟩
  · have hp := h.2.2.1 ⟨"downloading", 3, 4, none⟩ rfl (by decide)
    rw [hp, jsRound, Int.floor_eq_iff]
    norm_num
  · have hr := h.2.2.2.2.2.2.2 ⟨"downloading", 3, 4, none⟩ rfl (by decide) rfl (by decide)
    rw [hr, toFixed1, if_neg (by norm_num), toFixed1Nonneg]
    have hf : ⌊10 * (((3 : Int) : ℚ) / ((2 : Int) : ℚ)) + 1 / 2⌋ = (15 : Int) := by
      rw [Int.floor_eq_iff]
      norm_num
    simp only [hf]
    decide
  · exact h0.2.1 ⟨"parsing", 0, 0, none⟩ rfl rfl
  · exact h0.2.2.2.1 rfl

end YoloZip
